import Mathlib

/-!
Verification of the Trustora media-authenticity scoring engine
(`backend/app/api/analysis.py`) against its specification.

The development shallow-embeds the pure fusion arithmetic of the three
modality analyzers (`_analyze_image_real`, `_analyze_audio_real`,
`_analyze_video_real`), the risk-tier mapping, and the job orchestration
(`run_analysis_background`, `start_analysis`) over rational numbers and
explicit record states.  Media decoding, OpenCV/librosa signal extraction
and the external neural classifier are opaque I/O; their numeric outputs
enter the model as parameters, exactly at the interface where the Python
code consumes them.
-/

namespace Trustora

/-! ## Rounding

Python's built-in `round(x, 2)` rounds half to even at two decimal places.
We model it exactly over `ℚ` (idealizing away binary floating point). -/

/-- Round a rational to the nearest integer, ties to even (Python `round`). -/
def pyRound (y : ℚ) : ℤ :=
  if y - (⌊y⌋ : ℚ) < 1/2 then ⌊y⌋
  else if 1/2 < y - (⌊y⌋ : ℚ) then ⌊y⌋ + 1
  else if ⌊y⌋ % 2 = 0 then ⌊y⌋ else ⌊y⌋ + 1

/-- Python `round(x, 2)`: round to two decimal places, ties to even. -/
def round2 (x : ℚ) : ℚ := (pyRound (100 * x) : ℚ) / 100

/-- A rational is representable with two decimal places. -/
def twoDecimal (q : ℚ) : Prop := ∃ n : ℤ, q = (n : ℚ) / 100

/-! ## List statistics (NumPy `mean`, `var`, Python `max`/`min`) -/

/-- Arithmetic mean of a list of rationals (`np.mean`); `0` on `[]`. -/
def listMean (l : List ℚ) : ℚ := l.sum / l.length

/-- Population variance of a list of rationals (`np.var`). -/
def listVar (l : List ℚ) : ℚ := listMean (l.map (fun x => (x - listMean l)^2))

/-- Python `max` over a nonempty list (`0` default on `[]`). -/
def listMax (l : List ℚ) : ℚ := l.foldl max (l.headD 0)

/-- Python `min` over a nonempty list (`0` default on `[]`). -/
def listMin (l : List ℚ) : ℚ := l.foldl min (l.headD 0)

/-! ## Risk tiers -/

/-- Discrete risk tier (`risk_level` strings in the code). -/
inductive Risk
  | LOW
  | MEDIUM
  | HIGH
  | CRITICAL
deriving DecidableEq, Repr

/-- Ordinal rank of a risk tier. -/
def Risk.rank : Risk → Nat
  | .LOW => 0
  | .MEDIUM => 1
  | .HIGH => 2
  | .CRITICAL => 3

/-- Image risk mapping, `analysis.py` line 149:
`"CRITICAL" if score > 80 else "HIGH" if score > 65 else "MEDIUM" if score > 40 else "LOW"`. -/
def imageRisk (score : ℚ) : Risk :=
  if 80 < score then .CRITICAL
  else if 65 < score then .HIGH
  else if 40 < score then .MEDIUM
  else .LOW

/-- Audio risk mapping, `analysis.py` line 278:
`"CRITICAL" if score > 80 else "HIGH" if score > 60 else "MEDIUM" if score > 35 else "LOW"`. -/
def audioRisk (score : ℚ) : Risk :=
  if 80 < score then .CRITICAL
  else if 60 < score then .HIGH
  else if 35 < score then .MEDIUM
  else .LOW

/-- Video risk mapping, `analysis.py` line 393:
`"CRITICAL" if score > 80 else "HIGH" if score > 60 else "MEDIUM" if score > 40 else "LOW"`. -/
def videoRisk (score : ℚ) : Risk :=
  if 80 < score then .CRITICAL
  else if 60 < score then .HIGH
  else if 40 < score then .MEDIUM
  else .LOW

/-! ## Image fusion (`_analyze_image_real`, lines 113-148) -/

/-- Weighted image signal score (lines 113-119): sharpness 0.25, noise 0.25,
edge 0.15, face-anomaly 0.25, metadata 0.10. -/
def imageSignalScore (sharpness noise edge face metadata : ℚ) : ℚ :=
  sharpness * 0.25 + noise * 0.25 + edge * 0.15 + face * 0.25 + metadata * 0.10

/-- Image ensemble fusion (lines 140-146).  `hf` is the optional neural
fake-probability percentage, `signal` the signal score in `[0,1]`. -/
def imageFinalScore (hf : Option ℚ) (signal : ℚ) : ℚ :=
  match hf with
  | some n =>
      if 85 < n ∨ n < 15 then n * 0.85 + signal * 100 * 0.15
      else n * 0.60 + signal * 100 * 0.40
  | none => signal * 100

/-- Image verdict score (line 148): `round(min(final_score, 100), 2)`. -/
def imageScore (hf : Option ℚ) (signal : ℚ) : ℚ :=
  round2 (min (imageFinalScore hf signal) 100)

/-! ## Audio fusion (`_analyze_audio_real`, lines 262-276) -/

/-- Weighted audio signal ensemble (lines 263-268): MFCC 0.40, spectral
flatness 0.20, pitch regularity 0.20, phase discontinuity 0.20. -/
def audioSignalEnsemble (mfcc flatness pitch phase : ℚ) : ℚ :=
  mfcc * 0.40 + flatness * 0.20 + pitch * 0.20 + phase * 0.20

/-- Audio ensemble fusion (lines 270-274). -/
def audioFinalScore (hf : Option ℚ) (signalEnsemble : ℚ) : ℚ :=
  let signalScorePct := signalEnsemble * 100
  match hf with
  | some n => n * 0.70 + signalScorePct * 0.30
  | none => signalScorePct

/-- Audio verdict score (line 276): `round(min(final_score, 100), 2)`. -/
def audioScore (hf : Option ℚ) (signalEnsemble : ℚ) : ℚ :=
  round2 (min (audioFinalScore hf signalEnsemble) 100)

/-! ## Video fusion (`_analyze_video_real`, lines 368-392)

`frameScores` are per-frame sharpness-deficit values, `motionScores` the
normalized frame-difference means, `hfScores` the per-frame neural
fake-probability percentages (every 4th sampled frame). -/

/-- Mean neural score (line 369): `sum(hf_scores)/len(hf_scores) if hf_scores else 0`. -/
def videoAvgHf (hfScores : List ℚ) : ℚ :=
  if hfScores.isEmpty then 0 else listMean hfScores

/-- Temporal jitter index (line 370):
`max(hf_scores) - min(hf_scores) if len(hf_scores) > 1 else 0`. -/
def videoJitter (hfScores : List ℚ) : ℚ :=
  if 1 < hfScores.length then listMax hfScores - listMin hfScores else 0

/-- Mean frame sharpness-deficit (line 377): defaults to `0.5` with no frames. -/
def videoAvgFrameScore (frameScores : List ℚ) : ℚ :=
  if frameScores.isEmpty then 0.5 else listMean frameScores

/-- Motion variance (line 378): `np.var(motion_scores) if motion_scores else 0.0`. -/
def videoMotionVar (motionScores : List ℚ) : ℚ :=
  if motionScores.isEmpty then 0 else listVar motionScores

/-- Motion score (line 379): `min(motion_var * 250, 1.0)`. -/
def videoMotionScore (motionScores : List ℚ) : ℚ :=
  min (videoMotionVar motionScores * 250) 1

/-- Video signal percentage (line 384):
`(avg_frame_score * 0.4 + motion_score * 0.6) * 100`. -/
def videoSignalPct (frameScores motionScores : List ℚ) : ℚ :=
  (videoAvgFrameScore frameScores * 0.4 + videoMotionScore motionScores * 0.6) * 100

/-- Pre-bonus ensemble base (line 387): `(avg_hf * 0.75) + (signal_pct * 0.25)`. -/
def videoBaseScore (frameScores motionScores hfScores : List ℚ) : ℚ :=
  videoAvgHf hfScores * 0.75 + videoSignalPct frameScores motionScores * 0.25

/-- Video ensemble fusion (lines 385-390): with neural scores, the base plus a
`+15` bonus when `jitter > 35`, capped at `100`; otherwise the signal
percentage alone. -/
def videoFinalScore (frameScores motionScores hfScores : List ℚ) : ℚ :=
  if hfScores.isEmpty then videoSignalPct frameScores motionScores
  else
    min (videoBaseScore frameScores motionScores hfScores +
          (if 35 < videoJitter hfScores then 15 else 0)) 100

/-- Video verdict score (line 392): `round(final_score, 2)`. -/
def videoScore (frameScores motionScores hfScores : List ℚ) : ℚ :=
  round2 (videoFinalScore frameScores motionScores hfScores)

/-- Artifact tags emitted by the video analyzer that depend on the modelled
quantities (lines 373-375 and 381).  The code finally wraps the collected
list in `sorted(list(set(...)))`, which preserves membership. -/
def videoArtifacts (motionScores hfScores : List ℚ) : List String :=
  (if 35 < videoJitter hfScores then ["temporal_inference_jitter"] else []) ++
  (if (0.6 : ℚ) < videoMotionScore motionScores then ["unnatural_motion_vectors"] else [])

/-! ## Job orchestration (`run_analysis_background`, `start_analysis`)

The database is a list of `Scan` rows.  File contents are byte lists
(`none` models a missing file on disk); the content digest function
(`hashlib.sha256` streamed in 4096-byte chunks in the code) enters as a
parameter, and the per-modality analyzers enter as a single parameter
producing either a result payload or a raised exception's message. -/

/-- Job status column values. -/
inductive Status
  | pending
  | processing
  | completed
  | failed
deriving DecidableEq, Repr

/-- The JSON stored in the `analysis_result` column: a full result payload
on success, or `{"error": msg}` on failure. -/
inductive AnalysisRecord
  | result (score confidence : ℚ) (riskLevel : String) (artifacts : List String)
      (blockchainSeal : Option String)
  | error (msg : String)
deriving DecidableEq, Repr

/-- One row of the `scans` table, restricted to the columns the engine
reads or writes. -/
structure Scan where
  id : Nat
  userId : Nat
  fileType : String
  fileContent : Option (List Nat)
  status : Status
  deepfakeScore : Option ℚ
  confidence : Option ℚ
  riskLevel : Option String
  analysisResult : Option AnalysisRecord
  completedAt : Option Nat
deriving DecidableEq, Repr

/-- Outcome of awaiting one modality analyzer under `asyncio.wait_for`:
either the returned result dict (its verdict fields), or the message of the
exception that was raised (a timeout raises `TimeoutError`, whose message
is empty — see `timeoutErrorMessage`). -/
inductive AnalyzerOutcome
  | success (score confidence : ℚ) (riskLevel : String) (artifacts : List String)
  | failure (msg : String)
deriving DecidableEq, Repr

/-- String form of the `TimeoutError` raised by `asyncio.wait_for` on expiry
of the budget: the exception carries no arguments, so `str()` of it is empty. -/
def timeoutErrorMessage : String := ""

/-- Per-modality wall-clock budget in seconds (lines 469-473):
`120.0` for image and audio, `180.0` for video; any other `file_type`
raises `ValueError` instead of dispatching an analyzer. -/
def analysisTimeoutSeconds (fileType : String) : Option ℚ :=
  if fileType == "image" then some 120
  else if fileType == "audio" then some 120
  else if fileType == "video" then some 180
  else none

/-- The cache-hit test applied to each other scan (lines 449-456): status
`completed`, a different id, its file still on disk, and an equal digest.
No condition mentions the owning user or the declared modality. -/
def cacheHitPred (hash : List Nat → Nat) (scanId : Nat) (fileHash : Nat)
    (old : Scan) : Bool :=
  old.status == Status.completed && old.id != scanId &&
    (match old.fileContent with
     | some c => hash c == fileHash
     | none => false)

/-- Result of one background run, projected onto what the claims observe:
the final state of the scan row (`none` when the id was not found) and
whether a modality analyzer was invoked. -/
structure RunResult where
  scanAfter : Option Scan
  analyzerInvoked : Bool
deriving DecidableEq, Repr

/-- Shallow embedding of `run_analysis_background` (lines 418-506).
`analyze` stands for the awaited modality analyzer, `sealData` for the
blockchain-sealing collaborator's output (`none` when sealing failed, which
never fails the job), `now` for `datetime.utcnow()`. -/
def run_analysis_background (hash : List Nat → Nat)
    (analyze : Scan → AnalyzerOutcome) (sealData : Option String) (now : Nat)
    (db : List Scan) (scanId : Nat) : RunResult :=
  match db.find? (fun s => s.id == scanId) with
  | none => ⟨none, false⟩
  | some scan =>
    match scan.fileContent with
    | none =>
        ⟨some { scan with
                 status := Status.failed
                 analysisResult := some (AnalysisRecord.error "File not found") },
         false⟩
    | some content =>
      let fileHash := hash content
      match db.find? (cacheHitPred hash scanId fileHash) with
      | some old =>
          ⟨some { scan with
                   status := Status.completed
                   deepfakeScore := old.deepfakeScore
                   confidence := old.confidence
                   riskLevel := old.riskLevel
                   analysisResult := old.analysisResult
                   completedAt := some now },
           false⟩
      | none =>
        match analysisTimeoutSeconds scan.fileType with
        | some _ =>
          match analyze scan with
          | AnalyzerOutcome.success sc conf risk arts =>
              ⟨some { scan with
                       status := Status.completed
                       deepfakeScore := some sc
                       confidence := some conf
                       riskLevel := some risk
                       analysisResult :=
                         some (AnalysisRecord.result sc conf risk arts sealData)
                       completedAt := some now },
               true⟩
          | AnalyzerOutcome.failure msg =>
              ⟨some { scan with
                       status := Status.failed
                       analysisResult := some (AnalysisRecord.error msg) },
               true⟩
        | none =>
            ⟨some { scan with
                     status := Status.failed
                     analysisResult :=
                       some (AnalysisRecord.error
                         ("Unsupported file type: " ++ scan.fileType)) },
             false⟩

/-- Result of the `POST /analyze/start/{scan_id}` route: the database after
the call, the returned scan row (`none` models the 404), and whether a
background analysis task was scheduled. -/
structure StartResult where
  dbAfter : List Scan
  response : Option Scan
  taskScheduled : Bool
deriving DecidableEq, Repr

/-- Shallow embedding of `start_analysis` (lines 513-535): look the scan up
by id and owner; short-circuit when the status is `completed` or
`processing`; otherwise set `processing` and schedule the background task. -/
def start_analysis (db : List Scan) (userId scanId : Nat) : StartResult :=
  match db.find? (fun s => s.id == scanId && s.userId == userId) with
  | none => ⟨db, none, false⟩
  | some scan =>
    if scan.status == Status.completed || scan.status == Status.processing then
      ⟨db, some scan, false⟩
    else
      ⟨db.map (fun s =>
          if s.id == scanId && s.userId == userId then
            { s with status := Status.processing }
          else s),
       some { scan with status := Status.processing }, true⟩

/-! ## Supporting lemmas -/

lemma pyRound_nonneg {y : ℚ} (hy : 0 ≤ y) : 0 ≤ pyRound y := by
  have hf : (0 : ℤ) ≤ ⌊y⌋ := Int.floor_nonneg.mpr hy
  unfold pyRound
  split_ifs <;> omega

lemma pyRound_le {y : ℚ} {B : ℤ} (hy : y ≤ (B : ℚ)) : pyRound y ≤ B := by
  have hfB : ⌊y⌋ ≤ B := by
    have := Int.floor_le_floor hy
    simpa using this
  have hfl : (⌊y⌋ : ℚ) ≤ y := Int.floor_le y
  unfold pyRound
  split_ifs with h1 h2 h3
  · exact hfB
  · have hlt : (⌊y⌋ : ℚ) < (B : ℚ) := by linarith
    have : ⌊y⌋ < B := by exact_mod_cast hlt
    omega
  · exact hfB
  · have hr : y - (⌊y⌋ : ℚ) = 1/2 := le_antisymm (not_lt.mp h2) (not_lt.mp h1)
    have hlt : (⌊y⌋ : ℚ) < (B : ℚ) := by linarith
    have : ⌊y⌋ < B := by exact_mod_cast hlt
    omega

lemma round2_nonneg {x : ℚ} (hx : 0 ≤ x) : 0 ≤ round2 x := by
  have h := pyRound_nonneg (show (0 : ℚ) ≤ 100 * x by linarith)
  have h2 : (0 : ℚ) ≤ (pyRound (100 * x) : ℚ) := by exact_mod_cast h
  unfold round2
  linarith

lemma round2_le_100 {x : ℚ} (hx : x ≤ 100) : round2 x ≤ 100 := by
  have h : pyRound (100 * x) ≤ (10000 : ℤ) := by
    apply pyRound_le
    push_cast
    linarith
  have h2 : (pyRound (100 * x) : ℚ) ≤ 10000 := by exact_mod_cast h
  unfold round2
  linarith

lemma round2_twoDecimal (x : ℚ) : twoDecimal (round2 x) :=
  ⟨pyRound (100 * x), rfl⟩

lemma listMean_nonneg {l : List ℚ} (h : ∀ x ∈ l, 0 ≤ x) : 0 ≤ listMean l := by
  unfold listMean
  exact div_nonneg (List.sum_nonneg h) (by positivity)

lemma listMean_le {l : List ℚ} {B : ℚ} (hne : l ≠ []) (h : ∀ x ∈ l, x ≤ B) :
    listMean l ≤ B := by
  unfold listMean
  have hlen : 0 < (l.length : ℚ) := by
    have : 0 < l.length := List.length_pos.mpr hne
    exact_mod_cast this
  rw [div_le_iff₀ hlen]
  have := List.sum_le_card_nsmul l B h
  simpa [nsmul_eq_mul, mul_comm] using this

lemma listVar_nonneg (l : List ℚ) : 0 ≤ listVar l := by
  unfold listVar
  apply listMean_nonneg
  intro x hx
  simp only [List.mem_map] at hx
  obtain ⟨a, _, rfl⟩ := hx
  positivity

lemma cacheHitPred_iff (hash : List Nat → Nat) (scanId fileHash : Nat) (o : Scan) :
    cacheHitPred hash scanId fileHash o = true ↔
      o.status = Status.completed ∧ o.id ≠ scanId ∧
        ∃ c, o.fileContent = some c ∧ hash c = fileHash := by
  unfold cacheHitPred
  cases hco : o.fileContent <;>
    simp [hco, Bool.and_eq_true, beq_iff_eq, bne_iff_ne, and_assoc]

/-! ## Claim theorems -/

/-- C1: for image analysis, a confident neural score (`N > 85` or `N < 15`)
is fused as `0.85·N + 0.15·(100·S)`, an uncertain one (`15 ≤ N ≤ 85`) as
`0.60·N + 0.40·(100·S)`; in particular `S = 0.5`, `N = 90` yields `84.0`. -/
theorem C1_image_fusion :
    (∀ n s : ℚ, (85 < n ∨ n < 15) →
        imageFinalScore (some n) s = 0.85 * n + 0.15 * (100 * s)) ∧
    (∀ n s : ℚ, 15 ≤ n → n ≤ 85 →
        imageFinalScore (some n) s = 0.60 * n + 0.40 * (100 * s)) ∧
    imageScore (some 90) (1/2) = 84 := by
  refine ⟨?_, ?_, ?_⟩
  · intro n s h
    simp only [imageFinalScore, if_pos h]
    ring
  · intro n s h1 h2
    have hn : ¬(85 < n ∨ n < 15) := by
      push_neg
      exact ⟨h2, h1⟩
    simp only [imageFinalScore, if_neg hn]
    ring
  · norm_num [imageScore, imageFinalScore, round2, pyRound]

theorem C1_image_fusion_witness :
    imageFinalScore (some 90) (1/2) = 0.85 * 90 + 0.15 * (100 * (1/2)) ∧
    imageFinalScore (some 50) (1/2) = 0.60 * 50 + 0.40 * (100 * (1/2)) :=
  ⟨C1_image_fusion.1 90 (1/2) (Or.inl (by norm_num)),
   C1_image_fusion.2.1 50 (1/2) (by norm_num) (by norm_num)⟩

/-- C5: audio fusion is `0.70·N + 0.30·(100·S)` with the neural score present,
where `S` is the weighted ensemble (MFCC 0.40, flatness 0.20, pitch 0.20,
phase 0.20); without the neural backend the final score is exactly `100·S`. -/
theorem C5_audio_fusion :
    (∀ n m f p ph : ℚ,
        audioFinalScore (some n) (audioSignalEnsemble m f p ph) =
          0.70 * n + 0.30 * (100 * (0.40 * m + 0.20 * f + 0.20 * p + 0.20 * ph))) ∧
    (∀ s : ℚ, audioFinalScore none s = 100 * s) := by
  constructor
  · intro n m f p ph
    simp only [audioFinalScore, audioSignalEnsemble]
    ring
  · intro s
    simp only [audioFinalScore]
    ring

/-- C7: within each modality the risk tier is a monotonically non-decreasing
function of the fused score, and the image mapping is exactly
`score > 80 → CRITICAL, > 65 → HIGH, > 40 → MEDIUM, else LOW`. -/
theorem C7_risk_tiers :
    (∀ s t : ℚ, s ≤ t → (imageRisk s).rank ≤ (imageRisk t).rank) ∧
    (∀ s t : ℚ, s ≤ t → (audioRisk s).rank ≤ (audioRisk t).rank) ∧
    (∀ s t : ℚ, s ≤ t → (videoRisk s).rank ≤ (videoRisk t).rank) ∧
    (∀ s : ℚ,
      (80 < s → imageRisk s = Risk.CRITICAL) ∧
      (65 < s → s ≤ 80 → imageRisk s = Risk.HIGH) ∧
      (40 < s → s ≤ 65 → imageRisk s = Risk.MEDIUM) ∧
      (s ≤ 40 → imageRisk s = Risk.LOW)) := by
  refine ⟨?_, ?_, ?_, ?_⟩
  · intro s t hst
    unfold imageRisk
    split_ifs <;> simp [Risk.rank] <;> linarith
  · intro s t hst
    unfold audioRisk
    split_ifs <;> simp [Risk.rank] <;> linarith
  · intro s t hst
    unfold videoRisk
    split_ifs <;> simp [Risk.rank] <;> linarith
  · intro s
    refine ⟨?_, ?_, ?_, ?_⟩ <;>
      · intros
        unfold imageRisk
        split_ifs <;> first | rfl | linarith

theorem C7_risk_tiers_witness :
    (imageRisk 10).rank ≤ (imageRisk 90).rank ∧
    imageRisk 90 = Risk.CRITICAL ∧ imageRisk 70 = Risk.HIGH ∧
    imageRisk 50 = Risk.MEDIUM ∧ imageRisk 10 = Risk.LOW :=
  ⟨C7_risk_tiers.1 10 90 (by norm_num),
   (C7_risk_tiers.2.2.2 90).1 (by norm_num),
   (C7_risk_tiers.2.2.2 70).2.1 (by norm_num) (by norm_num),
   (C7_risk_tiers.2.2.2 50).2.2.1 (by norm_num) (by norm_num),
   (C7_risk_tiers.2.2.2 10).2.2.2 (by norm_num)⟩

/-- C2 counterexample: with per-frame neural scores `[90, 90]` (mean `N = 90`,
in the confident band `N > 85`), frame sharpness-deficits `[1/2, 1/2]` and
motion means `[0, 0]` (so `100·S = 20`), the video fusion yields
`0.75·90 + 0.25·20 = 72.5`, not the banded `0.85·90 + 0.15·20 = 79.5`
claimed for images. -/
theorem C2_counterexample :
    videoFinalScore [1/2, 1/2] [0, 0] [90, 90] = 145/2 ∧
    0.85 * videoAvgHf [(90 : ℚ), 90] + 0.15 * videoSignalPct [1/2, 1/2] [0, 0] = 159/2 ∧
    videoFinalScore [1/2, 1/2] [0, 0] [90, 90] ≠
      0.85 * videoAvgHf [(90 : ℚ), 90] + 0.15 * videoSignalPct [1/2, 1/2] [0, 0] := by
  refine ⟨?_, ?_, ?_⟩
  · norm_num [videoFinalScore, videoBaseScore, videoAvgHf, videoSignalPct,
      videoAvgFrameScore, videoMotionScore, videoMotionVar, videoJitter,
      listMean, listVar, listMax, listMin, List.foldl]
  · norm_num [videoAvgHf, videoSignalPct, videoAvgFrameScore, videoMotionScore,
      videoMotionVar, listMean, listVar]
  · norm_num [videoFinalScore, videoBaseScore, videoAvgHf, videoSignalPct,
      videoAvgFrameScore, videoMotionScore, videoMotionVar, videoJitter,
      listMean, listVar, listMax, listMin, List.foldl]

/-- C2 (amended): whenever per-frame neural scores are present, the video
fusion uses the fixed weights `0.75·N + 0.25·(100·S)` regardless of the
confidence band, where `S = 0.4·(mean frame-sharpness-deficit) +
0.6·(motion-variance score)`, plus the `+15` jitter bonus when the spread
exceeds 35, capped at 100. -/
theorem C2_video_fusion (fs ms hs : List ℚ) (hne : hs ≠ []) :
    videoFinalScore fs ms hs =
      min (0.75 * videoAvgHf hs +
            0.25 * (100 * (0.4 * videoAvgFrameScore fs + 0.6 * videoMotionScore ms)) +
            (if 35 < videoJitter hs then 15 else 0)) 100 := by
  have h : hs.isEmpty = false := by
    simpa [List.isEmpty_iff] using hne
  simp only [videoFinalScore, h, Bool.false_eq_true, if_false]
  congr 1
  unfold videoBaseScore videoSignalPct
  ring

theorem C2_video_fusion_witness :
    videoFinalScore [1/2, 1/2] [0, 0] [90, 90] =
      min (0.75 * videoAvgHf [(90 : ℚ), 90] +
            0.25 * (100 * (0.4 * videoAvgFrameScore [1/2, 1/2] +
              0.6 * videoMotionScore [0, 0])) +
            (if 35 < videoJitter [(90 : ℚ), 90] then 15 else 0)) 100 :=
  C2_video_fusion [1/2, 1/2] [0, 0] [90, 90] (by simp)

/-- C6: a per-frame neural-score spread above 35 emits
`temporal_inference_jitter` and adds a flat `+15` to the pre-clamp fused
score (capped at 100); a spread of 35 or less adds nothing and emits no such
tag. -/
theorem C6_jitter_bonus :
    (∀ fs ms hs : List ℚ, 35 < videoJitter hs →
        "temporal_inference_jitter" ∈ videoArtifacts ms hs ∧
        videoFinalScore fs ms hs = min (videoBaseScore fs ms hs + 15) 100) ∧
    (∀ fs ms hs : List ℚ, videoJitter hs ≤ 35 →
        "temporal_inference_jitter" ∉ videoArtifacts ms hs ∧
        (hs ≠ [] → videoFinalScore fs ms hs = min (videoBaseScore fs ms hs + 0) 100)) := by
  constructor
  · intro fs ms hs hj
    have hne : hs.isEmpty = false := by
      rcases hs with _ | ⟨a, rest⟩
      · simp [videoJitter] at hj
        linarith
      · rfl
    refine ⟨?_, ?_⟩
    · simp [videoArtifacts, if_pos hj]
    · simp only [videoFinalScore, hne, Bool.false_eq_true, if_false, if_pos hj]
  · intro fs ms hs hj
    have hnj : ¬ 35 < videoJitter hs := not_lt.mpr hj
    refine ⟨?_, ?_⟩
    · simp only [videoArtifacts, if_neg hnj, List.nil_append]
      split_ifs with hm
      · simp
      · simp
    · intro hne
      have h : hs.isEmpty = false := by
        simpa [List.isEmpty_iff] using hne
      simp only [videoFinalScore, h, Bool.false_eq_true, if_false, if_neg hnj]

theorem C6_jitter_bonus_witness :
    ("temporal_inference_jitter" ∈ videoArtifacts [] [(50 : ℚ), 90] ∧
      videoFinalScore [] [] [50, 90] = min (videoBaseScore [] [] [50, 90] + 15) 100) ∧
    ("temporal_inference_jitter" ∉ videoArtifacts [] [(50 : ℚ), 80] ∧
      ([(50 : ℚ), 80] ≠ ([] : List ℚ) →
        videoFinalScore [] [] [50, 80] = min (videoBaseScore [] [] [50, 80] + 0) 100)) :=
  ⟨C6_jitter_bonus.1 [] [] [50, 90]
      (by norm_num [videoJitter, listMax, listMin, List.foldl]),
   C6_jitter_bonus.2 [] [] [50, 80]
      (by norm_num [videoJitter, listMax, listMin, List.foldl])⟩

lemma videoMotionVar_nonneg (ms : List ℚ) : 0 ≤ videoMotionVar ms := by
  unfold videoMotionVar
  split_ifs
  · exact le_refl 0
  · exact listVar_nonneg ms

lemma videoMotionScore_mem (ms : List ℚ) :
    0 ≤ videoMotionScore ms ∧ videoMotionScore ms ≤ 1 := by
  unfold videoMotionScore
  refine ⟨le_min ?_ (by norm_num), min_le_right _ _⟩
  have := videoMotionVar_nonneg ms
  linarith

lemma videoAvgFrameScore_mem (fs : List ℚ) (h : ∀ x ∈ fs, 0 ≤ x ∧ x ≤ 1) :
    0 ≤ videoAvgFrameScore fs ∧ videoAvgFrameScore fs ≤ 1 := by
  unfold videoAvgFrameScore
  split_ifs with he
  · norm_num
  · have hne : fs ≠ [] := by
      intro hfs
      rw [hfs] at he
      simp at he
    exact ⟨listMean_nonneg (fun x hx => (h x hx).1),
           listMean_le hne (fun x hx => (h x hx).2)⟩

lemma videoAvgHf_mem (hs : List ℚ) (h : ∀ x ∈ hs, 0 ≤ x ∧ x ≤ 100) :
    0 ≤ videoAvgHf hs ∧ videoAvgHf hs ≤ 100 := by
  unfold videoAvgHf
  split_ifs with he
  · norm_num
  · have hne : hs ≠ [] := by
      intro hhs
      rw [hhs] at he
      simp at he
    exact ⟨listMean_nonneg (fun x hx => (h x hx).1),
           listMean_le hne (fun x hx => (h x hx).2)⟩

/-- C9: for every modality, under the ranges the analyzers guarantee for
their sub-scores (signal scores in `[0,1]`, neural percentages in
`[0,100]`), the fused verdict score lies in `[0,100]` and is an exact
two-decimal quantity. -/
theorem C9_score_bounds :
    (∀ (hf : Option ℚ) (s : ℚ),
        (∀ n, hf = some n → 0 ≤ n ∧ n ≤ 100) → 0 ≤ s → s ≤ 1 →
        0 ≤ imageScore hf s ∧ imageScore hf s ≤ 100 ∧
          twoDecimal (imageScore hf s)) ∧
    (∀ (hf : Option ℚ) (s : ℚ),
        (∀ n, hf = some n → 0 ≤ n ∧ n ≤ 100) → 0 ≤ s → s ≤ 1 →
        0 ≤ audioScore hf s ∧ audioScore hf s ≤ 100 ∧
          twoDecimal (audioScore hf s)) ∧
    (∀ fs ms hs : List ℚ,
        (∀ x ∈ fs, 0 ≤ x ∧ x ≤ 1) → (∀ x ∈ hs, 0 ≤ x ∧ x ≤ 100) →
        0 ≤ videoScore fs ms hs ∧ videoScore fs ms hs ≤ 100 ∧
          twoDecimal (videoScore fs ms hs)) := by
  refine ⟨?_, ?_, ?_⟩
  · intro hf s hn h0 h1
    have hfs : 0 ≤ imageFinalScore hf s := by
      cases hf with
      | none =>
        simp only [imageFinalScore]
        linarith
      | some n =>
        obtain ⟨hn0, hn1⟩ := hn n rfl
        simp only [imageFinalScore]
        split_ifs <;> nlinarith
    unfold imageScore
    exact ⟨round2_nonneg (le_min hfs (by norm_num)),
           round2_le_100 (min_le_right _ _), round2_twoDecimal _⟩
  · intro hf s hn h0 h1
    have hfs : 0 ≤ audioFinalScore hf s := by
      cases hf with
      | none =>
        simp only [audioFinalScore]
        linarith
      | some n =>
        obtain ⟨hn0, hn1⟩ := hn n rfl
        simp only [audioFinalScore]
        nlinarith
    unfold audioScore
    exact ⟨round2_nonneg (le_min hfs (by norm_num)),
           round2_le_100 (min_le_right _ _), round2_twoDecimal _⟩
  · intro fs ms hs hfs hhs
    have hmv := videoMotionScore_mem ms
    have hav := videoAvgFrameScore_mem fs hfs
    have hah := videoAvgHf_mem hs hhs
    have hsig0 : 0 ≤ videoSignalPct fs ms := by
      unfold videoSignalPct
      nlinarith [hav.1, hmv.1]
    have hsig1 : videoSignalPct fs ms ≤ 100 := by
      unfold videoSignalPct
      nlinarith [hav.2, hmv.2]
    have hbase0 : 0 ≤ videoBaseScore fs ms hs := by
      unfold videoBaseScore
      nlinarith [hah.1, hsig0]
    have hfin0 : 0 ≤ videoFinalScore fs ms hs := by
      unfold videoFinalScore
      split_ifs
      · exact hsig0
      · exact le_min (by linarith) (by norm_num)
      · exact le_min (by linarith) (by norm_num)
    have hfin1 : videoFinalScore fs ms hs ≤ 100 := by
      unfold videoFinalScore
      split_ifs
      · exact hsig1
      · exact min_le_right _ _
      · exact min_le_right _ _
    unfold videoScore
    exact ⟨round2_nonneg hfin0, round2_le_100 hfin1, round2_twoDecimal _⟩

theorem C9_score_bounds_witness :
    (0 ≤ imageScore (some 90) (1/2) ∧ imageScore (some 90) (1/2) ≤ 100 ∧
      twoDecimal (imageScore (some 90) (1/2))) ∧
    (0 ≤ audioScore (some 90) (1/2) ∧ audioScore (some 90) (1/2) ≤ 100 ∧
      twoDecimal (audioScore (some 90) (1/2))) ∧
    (0 ≤ videoScore [1/2] [0] [90] ∧ videoScore [1/2] [0] [90] ≤ 100 ∧
      twoDecimal (videoScore [1/2] [0] [90])) :=
  ⟨C9_score_bounds.1 (some 90) (1/2)
      (by intro n hn; cases hn; norm_num) (by norm_num) (by norm_num),
   C9_score_bounds.2.1 (some 90) (1/2)
      (by intro n hn; cases hn; norm_num) (by norm_num) (by norm_num),
   C9_score_bounds.2.2 [1/2] [0] [90]
      (by intro x hx; simp at hx; norm_num [hx])
      (by intro x hx; simp at hx; norm_num [hx])⟩

lemma run_background_cache_hit (hash : List Nat → Nat)
    (analyze : Scan → AnalyzerOutcome) (sealData : Option String) (now : Nat)
    (db : List Scan) (scanId : Nat) (scan old : Scan) (c oldc : List Nat)
    (hfind : db.find? (fun s => s.id == scanId) = some scan)
    (hc : scan.fileContent = some c)
    (hmem : old ∈ db) (hid : old.id ≠ scanId)
    (hst : old.status = Status.completed)
    (hoc : old.fileContent = some oldc) (hhash : hash oldc = hash c)
    (huniq : ∀ o ∈ db, o.id ≠ scanId → o.status = Status.completed →
        ∀ co, o.fileContent = some co → hash co = hash c → o = old) :
    run_analysis_background hash analyze sealData now db scanId =
      ⟨some { scan with
               status := Status.completed
               deepfakeScore := old.deepfakeScore
               confidence := old.confidence
               riskLevel := old.riskLevel
               analysisResult := old.analysisResult
               completedAt := some now },
       false⟩ := by
  have hpred : cacheHitPred hash scanId (hash c) old = true :=
    (cacheHitPred_iff hash scanId (hash c) old).mpr ⟨hst, hid, oldc, hoc, hhash⟩
  have hsome : (db.find? (cacheHitPred hash scanId (hash c))).isSome :=
    List.find?_isSome.mpr ⟨old, hmem, hpred⟩
  obtain ⟨o, ho⟩ := Option.isSome_iff_exists.mp hsome
  have hop := List.find?_some ho
  have hom := List.mem_of_find?_eq_some ho
  obtain ⟨host, hoid, co, hoco, hcoh⟩ :=
    (cacheHitPred_iff hash scanId (hash c) o).mp hop
  have heq : o = old := huniq o hom hoid host co hoco hcoh
  subst heq
  simp only [run_analysis_background, hfind, hc, ho]

/-- C3: when another job's source file re-hashes to the same digest and that
job has completed, a new job short-circuits to `completed` by copying that
job's verdict fields verbatim, with no analyzer invoked (the conclusion
holds for every `analyze` function, so no analysis work can have been
consulted). -/
theorem C3_cache_idempotence (hash : List Nat → Nat)
    (analyze : Scan → AnalyzerOutcome) (sealData : Option String) (now : Nat)
    (db : List Scan) (scanId : Nat) (scan old : Scan) (c oldc : List Nat)
    (hfind : db.find? (fun s => s.id == scanId) = some scan)
    (hc : scan.fileContent = some c)
    (hmem : old ∈ db) (hid : old.id ≠ scanId)
    (hst : old.status = Status.completed)
    (hoc : old.fileContent = some oldc) (hhash : hash oldc = hash c)
    (huniq : ∀ o ∈ db, o.id ≠ scanId → o.status = Status.completed →
        ∀ co, o.fileContent = some co → hash co = hash c → o = old) :
    run_analysis_background hash analyze sealData now db scanId =
      ⟨some { scan with
               status := Status.completed
               deepfakeScore := old.deepfakeScore
               confidence := old.confidence
               riskLevel := old.riskLevel
               analysisResult := old.analysisResult
               completedAt := some now },
       false⟩ :=
  run_background_cache_hit hash analyze sealData now db scanId scan old c oldc
    hfind hc hmem hid hst hoc hhash huniq

/-- A completed image job of user 1 whose verdict a later audio job of
user 2 (same bytes) copies. -/
def w1 : Scan :=
  ⟨1, 1, "image", some [7], Status.completed, some 84, some 90,
   some "CRITICAL", some (AnalysisRecord.result 84 90 "CRITICAL" [] none), some 5⟩

/-- The later job of user 2 with byte-identical content. -/
def w2 : Scan :=
  ⟨2, 2, "audio", some [7], Status.processing, none, none, none, none, none⟩

theorem C3_cache_idempotence_witness :
    run_analysis_background (fun l => l.length)
        (fun _ => AnalyzerOutcome.failure "never") none 9 [w1, w2] 2 =
      ⟨some { w2 with
               status := Status.completed
               deepfakeScore := w1.deepfakeScore
               confidence := w1.confidence
               riskLevel := w1.riskLevel
               analysisResult := w1.analysisResult
               completedAt := some 9 },
       false⟩ :=
  C3_cache_idempotence (fun l => l.length)
    (fun _ => AnalyzerOutcome.failure "never") none 9 [w1, w2] 2 w2 w1 [7] [7]
    rfl rfl (List.mem_cons_self _ _) (by decide) rfl rfl rfl
    (by
      intro o ho hid2 hst2 co hoco hh
      simp only [List.mem_cons, List.not_mem_nil, or_false] at ho
      rcases ho with rfl | rfl
      · rfl
      · exact absurd rfl hid2)

/-- C10: the cache search ignores the owning user and the declared modality:
for byte-identical files submitted by two different users (even under
different declared modalities), the second user's job completes by copying
the first user's stored verdict verbatim, without any analyzer running. -/
theorem C10_cross_user_cache (hash : List Nat → Nat)
    (analyze : Scan → AnalyzerOutcome) (sealData : Option String) (now : Nat)
    (db : List Scan) (scanId : Nat) (scan old : Scan) (c : List Nat)
    (hfind : db.find? (fun s => s.id == scanId) = some scan)
    (hc : scan.fileContent = some c)
    (hmem : old ∈ db) (hid : old.id ≠ scanId)
    (huser : old.userId ≠ scan.userId)
    (htype : old.fileType ≠ scan.fileType)
    (hst : old.status = Status.completed)
    (hoc : old.fileContent = some c)
    (huniq : ∀ o ∈ db, o.id ≠ scanId → o.status = Status.completed →
        ∀ co, o.fileContent = some co → hash co = hash c → o = old) :
    run_analysis_background hash analyze sealData now db scanId =
      ⟨some { scan with
               status := Status.completed
               deepfakeScore := old.deepfakeScore
               confidence := old.confidence
               riskLevel := old.riskLevel
               analysisResult := old.analysisResult
               completedAt := some now },
       false⟩ :=
  run_background_cache_hit hash analyze sealData now db scanId scan old c c
    hfind hc hmem hid hst hoc rfl huniq

/-- A completed video job of user 5. -/
def v1 : Scan :=
  ⟨3, 5, "video", some [9, 9], Status.completed, some 50, some 91,
   some "MEDIUM", some (AnalysisRecord.result 50 91 "MEDIUM" [] (some "seal")),
   some 4⟩

/-- A later image job of user 6 with the same bytes. -/
def v2 : Scan :=
  ⟨4, 6, "image", some [9, 9], Status.processing, none, none, none, none, none⟩

theorem C10_cross_user_cache_witness :
    run_analysis_background (fun l => l.length)
        (fun _ => AnalyzerOutcome.failure "never") none 11 [v1, v2] 4 =
      ⟨some { v2 with
               status := Status.completed
               deepfakeScore := v1.deepfakeScore
               confidence := v1.confidence
               riskLevel := v1.riskLevel
               analysisResult := v1.analysisResult
               completedAt := some 11 },
       false⟩ :=
  C10_cross_user_cache (fun l => l.length)
    (fun _ => AnalyzerOutcome.failure "never") none 11 [v1, v2] 4 v2 v1 [9, 9]
    rfl rfl (List.mem_cons_self _ _) (by decide) (by decide) (by decide) rfl rfl
    (by
      intro o ho hid2 hst2 co hoco hh
      simp only [List.mem_cons, List.not_mem_nil, or_false] at ho
      rcases ho with rfl | rfl
      · rfl
      · exact absurd rfl hid2)

/-- A processing image job whose analyzer will time out. -/
def c4scan : Scan :=
  ⟨1, 1, "image", some [3], Status.processing, none, none, none, none, none⟩

/-- C4 at the failing input: the per-modality budgets are 120 s (image,
audio) and 180 s (video), and when the analyzer's await raises the timeout,
the job reaches `failed` with no verdict fields persisted — but the recorded
error string is the `TimeoutError`'s string form, which is EMPTY, violating
the claim's non-empty requirement. -/
theorem C4_timeout_empty_error :
    analysisTimeoutSeconds "image" = some 120 ∧
    analysisTimeoutSeconds "audio" = some 120 ∧
    analysisTimeoutSeconds "video" = some 180 ∧
    timeoutErrorMessage = "" ∧
    run_analysis_background (fun l => l.length)
        (fun _ => AnalyzerOutcome.failure timeoutErrorMessage) none 9 [c4scan] 1 =
      ⟨some { c4scan with
               status := Status.failed
               analysisResult := some (AnalysisRecord.error "") },
       true⟩ ∧
    ({ c4scan with
        status := Status.failed
        analysisResult := some (AnalysisRecord.error "") } : Scan).deepfakeScore
      = none ∧
    ({ c4scan with
        status := Status.failed
        analysisResult := some (AnalysisRecord.error "") } : Scan).confidence
      = none ∧
    ({ c4scan with
        status := Status.failed
        analysisResult := some (AnalysisRecord.error "") } : Scan).riskLevel
      = none :=
  ⟨rfl, rfl, rfl, rfl, rfl, rfl, rfl, rfl⟩

/-- A failed scan, to probe re-entrant `start_analysis` behavior. -/
def c8scan : Scan :=
  ⟨1, 1, "image", some [3], Status.failed, none, none, none,
   some (AnalysisRecord.error "boom"), none⟩

/-- C8 counterexample: `failed` is not treated as terminal by
`start_analysis` — a start call on a failed job is NOT a no-op: it moves the
job back to `processing` and schedules the background analysis again. -/
theorem C8_counterexample :
    (start_analysis [c8scan] 1 1).taskScheduled = true ∧
    (start_analysis [c8scan] 1 1).response =
      some { c8scan with status := Status.processing } :=
  ⟨rfl, rfl⟩

/-- C8 (amended): `pending → processing → {completed, failed}`; a re-entrant
start call on an already-`processing` or `completed` job is a no-op
returning the current row and scheduling nothing, but a start call on a
`pending` or `failed` job sets the row to `processing` and schedules the
background analysis (so `failed` is not terminal for `start_analysis`). -/
theorem C8_state_machine (db : List Scan) (uid sid : Nat) (scan : Scan)
    (hfind : db.find? (fun s => s.id == sid && s.userId == uid) = some scan) :
    ((scan.status = Status.completed ∨ scan.status = Status.processing) →
        start_analysis db uid sid = ⟨db, some scan, false⟩) ∧
    ((scan.status = Status.pending ∨ scan.status = Status.failed) →
        (start_analysis db uid sid).taskScheduled = true ∧
        (start_analysis db uid sid).response =
          some { scan with status := Status.processing }) := by
  constructor
  · intro h
    have hb : (scan.status == Status.completed || scan.status == Status.processing)
        = true := by
      rcases h with h | h <;> simp [h]
    simp only [start_analysis, hfind, hb, if_true]
  · intro h
    have hb : (scan.status == Status.completed || scan.status == Status.processing)
        = false := by
      rcases h with h | h <;> simp [h]
    constructor <;>
      simp only [start_analysis, hfind, hb, Bool.false_eq_true, if_false]

/-- A pending scan for the amended C8 statement's witness. -/
def c8pending : Scan :=
  ⟨1, 1, "image", some [3], Status.pending, none, none, none, none, none⟩

theorem C8_state_machine_witness :
    (start_analysis [c8pending] 1 1).taskScheduled = true ∧
    (start_analysis [c8pending] 1 1).response =
      some { c8pending with status := Status.processing } :=
  (C8_state_machine [c8pending] 1 1 c8pending rfl).2 (Or.inl rfl)

end Trustora
